import Mathlib

/-!
GoBlog-Letterboxd: the `fetchWatches` cycle.

A shallow embedding of `src/letterboxd/letterboxd.go`.  Go strings are lists of
characters, the HTTP, XML and HTML libraries are an explicit `World` the cycle
runs against, and a run of `fetchWatches` is the list of library calls it makes
together with the way it ends (ordinary return or panic).
-/

namespace Letterboxd

/-- Go `string`, as the list of its characters. -/
abbrev Str := List Char

/-! ## Library functions used by the plugin -/

namespace strings

/-- Go `strings.TrimPrefix(s, prefix)`: `s` without the leading `pre`, or `s`
unchanged when it does not start with `pre`. -/
def TrimPrefix (s pre : Str) : Str :=
  if pre.isPrefixOf s then s.drop pre.length else s

/-- Scan of `strings.Replace(s, old, new, -1)` for a non-empty `old`: `skip`
counts the characters of the current occurrence that are still to be dropped. -/
def replaceScan (old new : Str) : Str → Nat → Str
  | [], _ => []
  | _ :: s, skip + 1 => replaceScan old new s skip
  | c :: s, 0 =>
    if old.isPrefixOf (c :: s) then new ++ replaceScan old new s (old.length - 1)
    else c :: replaceScan old new s 0

/-- Go `strings.Replace(s, old, new, -1)`: every non-overlapping occurrence of
`old` replaced by `new`, left to right; an empty `old` matches before every
character and at the end. -/
def Replace (s old new : Str) : Str :=
  match old with
  | [] => s.foldr (fun c acc => new ++ c :: acc) new
  | _ :: _ => replaceScan old new s 0

end strings

/-! ## Data model -/

/-- The `plugin` struct (the host handle `app` is not used by the cycle). -/
structure plugin where
  parameterName : Str
  blogURL : Str
  sectionName : Str
  username : Str
  token : Str

/-- Feed item (`RSSItem`). -/
structure RSSItem where
  Title : Str
  Link : Str
  Description : Str
  WatchedDate : Str
  Rewatch : Str
  FilmArt : Str := []

/-- Feed channel (`Channel`). -/
structure Channel where
  Title : Str := []
  Description : Str := []
  Link : Str := []
  Items : List RSSItem

/-- Feed document (`RSS`). -/
structure RSS where
  Channel : Channel

/-! ## The per-item computations of `fetchWatches` (lines 138-158, 204) -/

/-- Lines 142-146: `watchStatus`. -/
def watchStatus (item : RSSItem) : Str :=
  if item.Rewatch = "Yes".toList then "Rewatched ".toList else []

/-- Line 157: `watchName`. -/
def watchName (p : plugin) (item : RSSItem) : Str :=
  strings.Replace
    (strings.TrimPrefix item.Link ("https://letterboxd.com/".toList ++ p.username ++ "/film/".toList))
    ['/'] []

/-- Line 158: `slug := fmt.Sprintf("%s-%s", watchedDate, watchName)`. -/
def slug (p : plugin) (item : RSSItem) : Str :=
  item.WatchedDate ++ "-".toList ++ watchName p item

/-- The fixed opening of the content value on line 204 (the source file holds the
four characters U+F8FF, U+00FC, U+00E7, U+00F8 after the opening tag). -/
def contentOpening : Str := "<p class=\"p-name\">\uF8FFüçø ".toList

/-- Line 204: the `content` value of the form. -/
def content (item : RSSItem) : Str :=
  contentOpening ++ watchStatus item ++ "<b>".toList ++ item.Title ++ "</b></p>".toList
    ++ item.Description

/-! ## `regexp`: the poster pattern (lines 149-154) -/

namespace regexp

/-- The pieces the pattern on line 149 is built from. -/
inductive Piece
  /-- A literal character. -/
  | lit (c : Char)
  /-- The lazy repetition `.*?` (`.` is any character but a newline). -/
  | lazyAny
  /-- The opening bracket of the capture group. -/
  | groupOpen
  /-- The closing bracket of the capture group. -/
  | groupClose
  deriving DecidableEq, Repr

/-- What a match has consumed so far: the whole match and the text of group 1. -/
structure Captures where
  whole : Str
  group : Str
  deriving DecidableEq, Repr

/-- Consume one character, inside the group (`g = true`) or outside it. -/
def Captures.push (g : Bool) (c : Char) (m : Captures) : Captures :=
  ⟨m.whole ++ [c], if g then m.group ++ [c] else m.group⟩

/-- Consume a run of characters. -/
def Captures.pushAll (g : Bool) (a : Str) (m : Captures) : Captures :=
  ⟨m.whole ++ a, if g then m.group ++ a else m.group⟩

/-- The lazy repetition `.*?` followed by the continuation `k`: the rest of the
pattern is tried first, one more character is taken only when that fails. -/
def lazyLoop (k : Str → Captures → Option Captures) (g : Bool) :
    Str → Captures → Option Captures
  | [], m => k [] m
  | d :: s, m =>
    match k (d :: s) m with
    | some r => some r
    | none => if d = '\n' then none else lazyLoop k g s (m.push g d)

/-- Backtracking match of a pattern anchored at the start of the input. -/
def matchHere : List Piece → Str → Bool → Captures → Option Captures
  | [], _, _, m => some m
  | .lit c :: ps, s, g, m =>
    match s with
    | [] => none
    | d :: s' => if d = c then matchHere ps s' g (m.push g d) else none
  | .groupOpen :: ps, s, _, m => matchHere ps s true ⟨m.whole, []⟩
  | .groupClose :: ps, s, _, m => matchHere ps s false m
  | .lazyAny :: ps, s, g, m => lazyLoop (fun s' m' => matchHere ps s' g m') g s m

/-- Leftmost match: the first start position at which the pattern matches. -/
def leftmost (ps : List Piece) : Str → Option Captures
  | [] => matchHere ps [] false ⟨[], []⟩
  | c :: s =>
    match matchHere ps (c :: s) false ⟨[], []⟩ with
    | some r => some r
    | none => leftmost ps s

/-- Go `(*Regexp).FindStringSubmatch` for a pattern with one group: `nil` when
there is no match, else the whole match followed by the text of group 1. -/
def FindStringSubmatch (ps : List Piece) (s : Str) : List Str :=
  match leftmost ps s with
  | none => []
  | some m => [m.whole, m.group]

/-- A run of literal characters. -/
def lits (s : Str) : List Piece := s.map Piece.lit

end regexp

/-- Line 149: the compiled pattern `<img.*?src="(.*?)".*?>`. -/
def re : List regexp.Piece :=
  regexp.lits "<img".toList ++ [regexp.Piece.lazyAny] ++ regexp.lits "src=\"".toList
    ++ [regexp.Piece.groupOpen, regexp.Piece.lazyAny, regexp.Piece.groupClose,
        regexp.Piece.lit '"', regexp.Piece.lazyAny, regexp.Piece.lit '>']

/-- Lines 150-154: `filmArt`, the poster URL taken from a description. -/
def filmArt (description : Str) : Str :=
  let submatches := regexp.FindStringSubmatch re description
  if submatches.length > 1 then submatches.getD 1 [] else []

/-! ## The world the cycle runs against -/

/-- One node of a `goquery` selection, seen through its attributes. -/
structure Element where
  attr : Str → Option Str

/-- Go `(*Selection).AttrOr(name, default)`. -/
def Element.AttrOr (e : Element) (name dflt : Str) : Str :=
  match e.attr name with
  | some v => v
  | none => dflt

/-- A parsed HTML document, seen through `Find`: the nodes matching a selector,
in document order. -/
structure Document where
  Find : Str → List Element

/-- A response body, seen through the three readers the cycle applies to it;
`none` is the reader's error. -/
structure Body where
  /-- Result of `xml.NewDecoder(body).Decode(&rss)`. -/
  xml : Option RSS
  /-- Result of `goquery.NewDocumentFromReader(body)`. -/
  html : Option Document
  /-- Result of `io.ReadAll(body)`. -/
  text : Option Str

/-- An HTTP response: status code and body. -/
structure Response where
  status : Nat
  body : Body

/-- The form data (`url.Values`): keys with their value lists. -/
abbrev Values := List (Str × List Str)

/-- An outgoing request built by `http.NewRequest`; the body is kept as the form
data that `formData.Encode()` serialises. -/
structure Request where
  method : Str
  url : Str
  header : List (Str × Str)
  body : Values
  deriving DecidableEq

/-- Go `req.Header.Set(key, value)`. -/
def Request.setHeader (r : Request) (key value : Str) : Request :=
  { r with header := (r.header.filter fun kv => kv.1 ≠ key) ++ [(key, value)] }

/-- The network as the cycle sees it; `none` is a returned `err != nil`. -/
structure World where
  /-- Answer of `http.Get(url)`. -/
  get : Str → Option Response
  /-- Whether `http.NewRequest(method, url, body)` succeeds. -/
  newRequestOk : Str → Str → Bool
  /-- Answer of `client.Do(req)`. -/
  send : Request → Option Response

/-- The library calls a cycle makes, in order. -/
inductive Event
  /-- A call of `http.Get(url)`. -/
  | get (url : Str)
  /-- A call of `http.NewRequest(method, url, body)`. -/
  | newRequest (method url : Str) (body : Values)
  /-- A call of `client.Do(req)`. -/
  | post (req : Request)
  /-- A call of `fmt.Println` with the given leading text. -/
  | println (msg : Str)
  deriving DecidableEq

/-- How control leaves a piece of code. -/
inductive Flow
  /-- Control reaches the end of the loop body. -/
  | next
  /-- A `return` statement. -/
  | ret
  /-- A run-time panic with its message. -/
  | panic (msg : Str)
  deriving DecidableEq

/-- How a call of `fetchWatches` ends. -/
inductive Exit
  /-- The function returns to the scheduler loop. -/
  | returned
  /-- The goroutine panics (nothing in the plugin recovers). -/
  | panicked (msg : Str)
  deriving DecidableEq

/-- A run of `fetchWatches`: the calls made and the way it ended. -/
structure Run where
  trace : List Event
  exit : Exit
  deriving DecidableEq

/-- Record one call in front of what follows it. -/
def emit (e : Event) (k : List Event × Flow) : List Event × Flow :=
  (e :: k.1, k.2)

/-- The URLs fetched by a run. -/
def Run.gets (r : Run) : List Str :=
  r.trace.filterMap fun e => match e with
    | .get u => some u
    | _ => none

/-- The publish requests sent by a run. -/
def Run.posts (r : Run) : List Request :=
  r.trace.filterMap fun e => match e with
    | .post q => some q
    | _ => none

/-! ## `fetchWatches` (lines 117-240) -/

/-- Line 119: the feed URL. -/
def feedURL (p : plugin) : Str := "https://letterboxd.com/".toList ++ p.username ++ "/rss".toList

/-- Line 161: the section index URL. -/
def sectionURL (p : plugin) : Str := p.blogURL ++ "/".toList ++ p.sectionName

/-- Line 209: the Micropub endpoint. -/
def micropubURL (p : plugin) : Str := p.blogURL ++ "/micropub".toList

/-- Go slice expression `s[:n]`: panics when `n` exceeds the capacity (the
decoded item slice has no spare capacity when it is empty: it is `nil`). -/
def sliceTo {α : Type} (s : List α) (n : Nat) : Option (List α) :=
  if n ≤ s.length then some (s.take n) else none

/-- Lines 172-175: `uURL`, set by `Find(".h-entry a.u-url").First().Each(...)`. -/
def uURL (htmlDoc : Document) : Str :=
  ((htmlDoc.Find ".h-entry a.u-url".toList).take 1).foldl
    (fun _ s => s.AttrOr "href".toList []) []

/-- Lines 192-195: `syndicated`, set by `Find(".letterboxd").Each(...)`. -/
def syndicated (htmlDoc : Document) : Str :=
  (htmlDoc.Find ".letterboxd".toList).foldl (fun _ s => s.AttrOr "href".toList []) []

/-- Lines 200-206: `formData`. -/
def formData (p : plugin) (item : RSSItem) : Values :=
  [("section".toList, [p.sectionName]),
   ("slug".toList, [slug p item]),
   ("syndication".toList, [item.Link]),
   ("content".toList, [content item])]

/-- Lines 209-218: the request handed to `client.Do`. -/
def micropubRequest (p : plugin) (item : RSSItem) : Request :=
  ((Request.mk "POST".toList (micropubURL p) [] (formData p item)).setHeader
      "Authorization".toList ("Bearer ".toList ++ p.token)).setHeader
    "Content-Type".toList "application/x-www-form-urlencoded".toList

/-- Lines 199-235: the publish branch. -/
def publish (p : plugin) (w : World) (item : RSSItem) : List Event × Flow :=
  emit (.newRequest "POST".toList (micropubURL p) (formData p item)) <|
    if w.newRequestOk "POST".toList (micropubURL p) then
      let req := micropubRequest p item
      emit (.post req) <|
        match w.send req with
        | none => ([], .panic "error creating request".toList)
        | some res =>
          match res.body.text with
          | none => ([], .panic "error creating request".toList)
          | some resBody => ([.println resBody], .next)
    else ([], .panic "error creating request".toList)

/-- Lines 137-238: the body of the `range` loop for one item.  The poster URL of
lines 148-154 (`filmArt`) is computed there but not used: its form field on
line 205 is commented out. -/
def loopBody (p : plugin) (w : World) (item : RSSItem) : List Event × Flow :=
  emit (.get (sectionURL p)) <|
    match w.get (sectionURL p) with
    | none => ([.println "Error fetching HTML page:".toList], .ret)
    | some resp =>
      match resp.body.html with
      | none => ([.println "Error parsing HTML page:".toList], .ret)
      | some htmlDoc =>
        if uURL htmlDoc = [] then ([.println "Error: u-url not found".toList], .ret)
        else
          let ownWatch := p.blogURL ++ uURL htmlDoc
          emit (.get ownWatch) <|
            match w.get ownWatch with
            | none => ([.println "Error fetching u-url HTML page:".toList], .ret)
            | some resp =>
              match resp.body.html with
              | none => ([.println "Error parsing u-url HTML page:".toList], .ret)
              | some htmlDoc =>
                if syndicated htmlDoc ≠ item.Link then publish p w item
                else ([.println "Letterboxd plugin: Watches up to date at".toList], .next)

/-- Line 136: `for _, item := range lastItem`. -/
def rangeLoop (p : plugin) (w : World) : List RSSItem → Run
  | [] => ⟨[], .returned⟩
  | item :: rest =>
    match loopBody p w item with
    | (evs, .next) => let r := rangeLoop p w rest; ⟨evs ++ r.trace, r.exit⟩
    | (evs, .ret) => ⟨evs, .returned⟩
    | (evs, .panic msg) => ⟨evs, .panicked msg⟩

/-- The method `fetchWatches`. -/
def fetchWatches (p : plugin) (w : World) : Run :=
  match w.get (feedURL p) with
  | none => ⟨[.get (feedURL p), .println "Error fetching Letterboxd feed:".toList], .returned⟩
  | some resp =>
    match resp.body.xml with
    | none => ⟨[.get (feedURL p), .println "Error parsing Letterboxd feed:".toList], .returned⟩
    | some rss =>
      match sliceTo rss.Channel.Items 1 with
      | none => ⟨[.get (feedURL p)], .panicked "slice bounds out of range [:1] with capacity 0".toList⟩
      | some lastItem =>
        let r := rangeLoop p w lastItem
        ⟨.get (feedURL p) :: r.trace, r.exit⟩

/-! ## The own site, as an explicit state

The blog is a separate program.  For the two-cycle property it is modelled as
the list of the section's posts, newest first: the section index lists one
permalink anchor per post, a post page carries the marked `.letterboxd` link
when the post has a syndication value, and an accepted Micropub request puts a
new post in front whose syndication is the submitted value. -/

/-- A post of the section: its slug and its syndication value, if any. -/
structure Post where
  slug : Str
  syndication : Option Str

/-- The section's posts, newest first. -/
abbrev Site := List Post

/-- The path under which the blog serves a post. -/
def permalink (p : plugin) (q : Post) : Str :=
  "/".toList ++ p.sectionName ++ "/".toList ++ q.slug

/-- An anchor element with the given target. -/
def anchor (href : Str) : Element :=
  ⟨fun name => if name = "href".toList then some href else none⟩

/-- The rendered section index: one `.h-entry a.u-url` anchor per post. -/
def indexPage (p : plugin) (st : Site) : Document :=
  ⟨fun sel => if sel = ".h-entry a.u-url".toList then st.map fun q => anchor (permalink p q)
    else []⟩

/-- The rendered page of a post: the `.letterboxd` link when it has a
syndication value. -/
def postPage (q : Post) : Document :=
  ⟨fun sel =>
    if sel = ".letterboxd".toList then
      match q.syndication with
      | some y => [anchor y]
      | none => []
    else []⟩

/-- A served HTML page. -/
def htmlResponse (d : Document) : Response := ⟨200, ⟨none, some d, some []⟩⟩

/-- The served feed document. -/
def feedResponse (rss : RSS) : Response := ⟨200, ⟨some rss, some ⟨fun _ => []⟩, some []⟩⟩

/-- The recorded syndication source of a post: the target of its marked link,
empty when it has none. -/
def Post.recorded (q : Post) : Str :=
  match q.syndication with
  | some y => y
  | none => []

/-- The world in which the diary serves `rss` and the blog is in state `st`;
every request can be built and every POST is accepted. -/
def siteWorld (p : plugin) (rss : RSS) (st : Site) : World where
  get := fun url =>
    if url = feedURL p then some (feedResponse rss)
    else if url = sectionURL p then some (htmlResponse (indexPage p st))
    else (st.find? fun q => p.blogURL ++ permalink p q = url).map fun q => htmlResponse (postPage q)
  newRequestOk := fun _ _ => true
  send := fun _ => some ⟨202, ⟨none, none, some []⟩⟩

/-- The first value a form holds for a key. -/
def Values.first (v : Values) (key : Str) : Option Str :=
  match v.lookup key with
  | some (x :: _) => some x
  | _ => none

/-- The blog accepts a publish request: the new post becomes the newest entry
and records the submitted syndication value. -/
def Site.accept (st : Site) (req : Request) : Site :=
  match Values.first req.body "slug".toList with
  | some sl => ⟨sl, Values.first req.body "syndication".toList⟩ :: st
  | none => st

/-- One cycle against the site: the run, and the site after the publish requests
of the run were accepted. -/
def cycle (p : plugin) (rss : RSS) (st : Site) : Run × Site :=
  let r := fetchWatches p (siteWorld p rss st)
  (r, r.posts.foldl Site.accept st)

/-- Two consecutive cycles with the same feed. -/
def twoCycles (p : plugin) (rss : RSS) (st : Site) : Run × Run :=
  let c1 := cycle p rss st
  let c2 := cycle p rss c1.2
  (c1.1, c2.1)

/-! ## Concrete inputs -/

/-- An image tag written out from its attributes, every value in double quotes. -/
def imgTag (attrs : List (Str × Str)) : Str :=
  "<img".toList ++ (attrs.flatMap fun kv => " ".toList ++ kv.1 ++ "=\"".toList ++ kv.2 ++ "\"".toList)
    ++ ">".toList

/-- A configuration: blog at `https://blog.example`, section `watches`, diary user `user`. -/
def demoPlugin : plugin :=
  { parameterName := "syndication".toList
    blogURL := "https://blog.example".toList
    sectionName := "watches".toList
    username := "user".toList
    token := "secret".toList }

/-- The feed item of the end-to-end scenario. -/
def movieA : RSSItem :=
  { Title := "Movie A".toList
    Link := "https://letterboxd.com/user/film/movie-a/".toList
    Description := "<p><img src=\"http://x/p.jpg\"></p>".toList
    WatchedDate := "2024-01-01".toList
    Rewatch := "No".toList }

/-- The same item logged as a rewatch. -/
def movieARewatched : RSSItem := { movieA with Rewatch := "Yes".toList }

/-- A feed whose newest item is `movieA`. -/
def demoFeed : RSS := ⟨{ Items := [movieA] }⟩

/-- A feed that parses and has no item. -/
def emptyFeed : RSS := ⟨{ Items := [] }⟩

/-- A blog whose only post was written by hand (no syndication value). -/
def demoSite : Site := [⟨"hello".toList, none⟩]

/-- A blog whose newest post already records `movieA`. -/
def syncedSite : Site := [⟨"2024-01-01-movie-a".toList, some movieA.Link⟩]

/-- The world of the end-to-end scenario: the diary serves `demoFeed`, the blog
is `demoSite`. -/
def demoWorld : World := siteWorld demoPlugin demoFeed demoSite

/-- The world in which the blog already shows `movieA` as its newest post. -/
def syncedWorld : World := siteWorld demoPlugin demoFeed syncedSite

/-- As `syncedWorld`, but the page of the newest post is answered with status
500 and an error page. -/
def errorPageWorld : World :=
  { syncedWorld with
    get := fun url =>
      if url = demoPlugin.blogURL ++ "/watches/2024-01-01-movie-a".toList then
        some ⟨500, ⟨none, some ⟨fun _ => []⟩, some "Internal Server Error".toList⟩⟩
      else syncedWorld.get url }

/-- As `demoWorld`, but the blog is unreachable when the POST is sent. -/
def postDownWorld : World := { demoWorld with send := fun _ => none }

/-- As `demoWorld`, but the blog is unreachable when the section index is
fetched. -/
def blogDownWorld : World :=
  { demoWorld with get := fun url => if url = feedURL demoPlugin then demoWorld.get url else none }

/-- The world in which the section has no post yet. -/
def emptySectionWorld : World := siteWorld demoPlugin demoFeed []

/-- The world in which the diary has no entry yet. -/
def emptyFeedWorld : World := siteWorld demoPlugin emptyFeed demoSite

/-- The same world with other status codes: every answered GET carries the
status `f url old` and every answered POST the status `g req old`; bodies and
transport errors are untouched. -/
def World.mapStatus (w : World) (f : Str → Nat → Nat) (g : Request → Nat → Nat) : World where
  get := fun url =>
    match w.get url with
    | none => none
    | some r => some ⟨f url r.status, r.body⟩
  newRequestOk := w.newRequestOk
  send := fun req =>
    match w.send req with
    | none => none
    | some r => some ⟨g req r.status, r.body⟩

/-- As `demoWorld`, but every GET is answered with status 503 and the POST with
status 500. -/
def allErrorStatusWorld : World := demoWorld.mapStatus (fun _ _ => 503) (fun _ _ => 500)

/-! ## Helper lemmas: strings -/

theorem replaceScan_slash (s : Str) :
    strings.replaceScan ['/'] [] s 0 = s.filter (fun c => c ≠ '/') := by
  induction s with
  | nil => rfl
  | cons c s ih =>
    by_cases hc : c = '/'
    · subst hc
      simp [strings.replaceScan, List.isPrefixOf, ih]
    · have hc2 : ¬ '/' = c := fun h => hc h.symm
      simp [strings.replaceScan, List.isPrefixOf, ih, hc, hc2]

theorem Replace_slash (s : Str) :
    strings.Replace s ['/'] [] = s.filter (fun c => c ≠ '/') := by
  simp [strings.Replace, replaceScan_slash]

theorem TrimPrefix_append (pre t : Str) : strings.TrimPrefix (pre ++ t) pre = t := by
  simp [strings.TrimPrefix]

theorem watchName_of_film_link (p : plugin) (item : RSSItem) (t : Str)
    (h : item.Link = "https://letterboxd.com/".toList ++ p.username ++ "/film/".toList ++ t) :
    watchName p item = t.filter (fun c => c ≠ '/') := by
  unfold watchName
  rw [h, TrimPrefix_append, Replace_slash]

/-! ## Helper lemmas: the backtracking matcher -/

namespace regexp

theorem pushAll_nil (g : Bool) (m : Captures) : m.pushAll g [] = m := by
  cases g <;> simp [Captures.pushAll]

theorem pushAll_cons (g : Bool) (c : Char) (a : Str) (m : Captures) :
    m.pushAll g (c :: a) = (m.push g c).pushAll g a := by
  cases g <;> simp [Captures.pushAll, Captures.push]

theorem pushAll_false_group (a : Str) (m : Captures) : (m.pushAll false a).group = m.group := by
  simp [Captures.pushAll]

/-- Literals at the head of a pattern only match an input that starts with them. -/
theorem matchHere_lits_starts (w : Str) (ps : List Piece) :
    ∀ (s : Str) (g : Bool) (m r : Captures),
      matchHere (lits w ++ ps) s g m = some r → w <+: s := by
  induction w with
  | nil => intro s g m r _; exact List.nil_prefix
  | cons c w ih =>
    intro s g m r h
    cases s with
    | nil => simp [lits, matchHere] at h
    | cons d s =>
      simp only [lits, List.map_cons, List.cons_append, matchHere] at h
      by_cases hd : d = c
      · subst hd
        simp only [if_true] at h
        have := ih s g _ r h
        exact (List.cons_prefix_cons).2 ⟨rfl, this⟩
      · simp [hd] at h

theorem matchHere_lits_none (w : Str) (ps : List Piece) (s : Str) (g : Bool) (m : Captures)
    (h : ¬ w <+: s) : matchHere (lits w ++ ps) s g m = none := by
  cases hm : matchHere (lits w ++ ps) s g m with
  | none => rfl
  | some r => exact absurd (matchHere_lits_starts w ps s g m r hm) h

/-- Literals at the head of a pattern consume themselves. -/
theorem matchHere_lits_append (w : Str) (ps : List Piece) :
    ∀ (s : Str) (g : Bool) (m : Captures),
      matchHere (lits w ++ ps) (w ++ s) g m = matchHere ps s g (m.pushAll g w) := by
  induction w with
  | nil => intro s g m; simp [lits, pushAll_nil]
  | cons c w ih =>
    intro s g m
    simp only [lits, List.map_cons, List.cons_append, matchHere, if_true]
    rw [pushAll_cons]
    exact ih s g _

/-- The lazy repetition stops at the first position where the continuation
succeeds. -/
theorem lazyLoop_skip (k : Str → Captures → Option Captures) (g : Bool) (s : Str) :
    ∀ (a : Str) (m : Captures),
      (∀ c ∈ a, c ≠ '\n') →
      (∀ a1 a2 m', a = a1 ++ a2 → a2 ≠ [] → k (a2 ++ s) m' = none) →
      lazyLoop k g (a ++ s) m = lazyLoop k g s (m.pushAll g a) := by
  intro a
  induction a with
  | nil => intro m _ _; simp [pushAll_nil]
  | cons c a ih =>
    intro m hnl hk
    have h0 : k (c :: a ++ s) m = none := hk [] (c :: a) m rfl (by simp)
    have hc : c ≠ '\n' := hnl c (by simp)
    simp only [List.cons_append] at h0 ⊢
    rw [lazyLoop, h0]
    simp only [hc, if_false]
    rw [pushAll_cons]
    apply ih
    · intro d hd; exact hnl d (by simp [hd])
    · intro a1 a2 m' ha ha2
      exact hk (c :: a1) a2 m' (by simp [ha]) ha2

theorem lazyLoop_here (k : Str → Captures → Option Captures) (g : Bool) (s : Str)
    (m r : Captures) (h : k s m = some r) : lazyLoop k g s m = some r := by
  cases s with
  | nil => simpa [lazyLoop] using h
  | cons d s => simp [lazyLoop, h]

/-- The closing `.*?>` of the pattern matches up to some `>` on the same line
and leaves the group untouched. -/
theorem lazyLoop_close (post : Str) :
    ∀ (rest : Str) (m : Captures), (∀ c ∈ rest, c ≠ '\n') →
      ∃ r, lazyLoop (fun s' m' => matchHere [Piece.lit '>'] s' false m') false
            (rest ++ '>' :: post) m = some r ∧ r.group = m.group := by
  intro rest
  induction rest with
  | nil =>
    intro m _
    refine ⟨m.push false '>', ?_, by simp [Captures.push]⟩
    simp [lazyLoop, matchHere]
  | cons c rest ih =>
    intro m hnl
    by_cases hc : c = '>'
    · subst hc
      refine ⟨m.push false '>', ?_, by simp [Captures.push]⟩
      simp [lazyLoop, matchHere]
    · have hn : c ≠ '\n' := hnl c (by simp)
      obtain ⟨r, hr, hg⟩ := ih (m.push false c) (fun d hd => hnl d (by simp [hd]))
      refine ⟨r, ?_, by simpa [Captures.push] using hg⟩
      simp only [List.cons_append, lazyLoop, matchHere, hc, if_false, hn]
      exact hr

/-- The leftmost search skips the start positions at which the pattern fails. -/
theorem leftmost_skip (ps : List Piece) (s : Str) :
    ∀ (pre : Str),
      (∀ a1 a2, pre = a1 ++ a2 → a2 ≠ [] → matchHere ps (a2 ++ s) false ⟨[], []⟩ = none) →
      leftmost ps (pre ++ s) = leftmost ps s := by
  intro pre
  induction pre with
  | nil => intro _; rfl
  | cons c pre ih =>
    intro hk
    have h0 := hk [] (c :: pre) rfl (by simp)
    simp only [List.cons_append] at h0 ⊢
    rw [leftmost, h0]
    exact ih (fun a1 a2 ha ha2 => hk (c :: a1) a2 (by simp [ha]) ha2)

theorem leftmost_here (ps : List Piece) (s : Str) (r : Captures)
    (h : matchHere ps s false ⟨[], []⟩ = some r) : leftmost ps s = some r := by
  cases s with
  | nil => simpa [leftmost] using h
  | cons d s => simp [leftmost, h]

/-- No match when the pattern fails at every start position. -/
theorem leftmost_none (ps : List Piece) :
    ∀ (s : Str), (∀ t, t <:+ s → matchHere ps t false ⟨[], []⟩ = none) →
      leftmost ps s = none := by
  intro s
  induction s with
  | nil => intro h; simpa [leftmost] using h [] (List.suffix_refl _)
  | cons c s ih =>
    intro h
    rw [leftmost, h (c :: s) (List.suffix_refl _)]
    exact ih (fun t ht => h t (ht.trans (List.suffix_cons c s)))

end regexp

/-! ## Helper lemmas: the poster pattern -/

theorem re_eq : re =
    regexp.lits ['<', 'i', 'm', 'g'] ++ (regexp.Piece.lazyAny ::
      (regexp.lits ['s', 'r', 'c', '=', '"'] ++
        [regexp.Piece.groupOpen, regexp.Piece.lazyAny, regexp.Piece.groupClose,
          regexp.Piece.lit '"', regexp.Piece.lazyAny, regexp.Piece.lit '>'])) := by
  rfl

/-- An occurrence of `<img` that starts before a following `<img` lies before it. -/
theorem img_straddle (a1 a2 t : Str) (h : ¬ ['<', 'i', 'm', 'g'] <:+: a1 ++ a2) (ha2 : a2 ≠ []) :
    ¬ ['<', 'i', 'm', 'g'] <+: a2 ++ (['<', 'i', 'm', 'g'] ++ t) := by
  intro hp
  match a2, ha2, hp with
  | [x], _, hp => simp [List.cons_prefix_cons] at hp
  | [x, y], _, hp => simp [List.cons_prefix_cons] at hp
  | [x, y, z], _, hp => simp [List.cons_prefix_cons] at hp
  | x :: y :: z :: u :: a3, _, hp =>
    simp only [List.cons_append, List.cons_prefix_cons] at hp
    obtain ⟨hx, hy, hz, hu, _⟩ := hp
    subst hx hy hz hu
    exact h ⟨a1, a3, by simp⟩

/-- Before the first double quote after `<img`, `src="` can only start where it
is written. -/
theorem src_straddle (a2 t : Str) (h : ∀ c ∈ a2, c ≠ '"') (ha2 : a2 ≠ []) :
    ¬ ['s', 'r', 'c', '=', '"'] <+: a2 ++ (['s', 'r', 'c', '=', '"'] ++ t) := by
  intro hp
  match a2, ha2, h, hp with
  | [x], _, _, hp => simp [List.cons_prefix_cons] at hp
  | [x, y], _, _, hp => simp [List.cons_prefix_cons] at hp
  | [x, y, z], _, _, hp => simp [List.cons_prefix_cons] at hp
  | [x, y, z, u], _, _, hp => simp [List.cons_prefix_cons] at hp
  | x :: y :: z :: u :: v :: a3, _, h, hp =>
    simp only [List.cons_append, List.cons_prefix_cons] at hp
    obtain ⟨_, _, _, _, hv, _⟩ := hp
    exact h v (by simp) hv.symm

/-- The match of the poster pattern on a description of the expected shape. -/
theorem leftmost_re_img (pre mid url rest post : Str)
    (hpre : ¬ ['<', 'i', 'm', 'g'] <:+: pre)
    (hmid : ∀ c ∈ mid, c ≠ '"' ∧ c ≠ '\n')
    (hurl : ∀ c ∈ url, c ≠ '"' ∧ c ≠ '\n')
    (hrest : ∀ c ∈ rest, c ≠ '\n') :
    ∃ r, regexp.leftmost re (pre ++ (['<', 'i', 'm', 'g'] ++ (mid ++ (['s', 'r', 'c', '=', '"'] ++
        (url ++ ('"' :: (rest ++ '>' :: post))))))) = some r ∧ r.group = url := by
  obtain ⟨r, hr, hg⟩ := regexp.lazyLoop_close post rest
    ((((⟨[], []⟩ : regexp.Captures).pushAll false ['<', 'i', 'm', 'g']).pushAll false mid).pushAll false
      ['s', 'r', 'c', '=', '"'] |> fun m => ((⟨m.whole, []⟩ : regexp.Captures).pushAll true url).push
        false '"') hrest
  refine ⟨r, ?_, by simpa [regexp.Captures.push, regexp.Captures.pushAll] using hg⟩
  rw [regexp.leftmost_skip]
  · apply regexp.leftmost_here
    rw [re_eq, regexp.matchHere_lits_append]
    rw [regexp.matchHere, regexp.lazyLoop_skip _ _ _ mid _ (fun c hc => (hmid c hc).2)]
    · apply regexp.lazyLoop_here
      rw [regexp.matchHere_lits_append]
      rw [regexp.matchHere, regexp.matchHere, regexp.lazyLoop_skip _ _ _ url _ (fun c hc => (hurl c hc).2)]
      · apply regexp.lazyLoop_here
        rw [regexp.matchHere, regexp.matchHere]
        simp only [if_true]
        rw [regexp.matchHere]
        exact hr
      · intro a1 a2 m' ha ha2
        cases a2 with
        | nil => exact absurd rfl ha2
        | cons x a2 =>
          have hx : x ≠ '"' := (hurl x (by simp [ha])).1
          simp [regexp.matchHere, hx]
    · intro a1 a2 m' ha ha2
      apply regexp.matchHere_lits_none
      exact src_straddle a2 _ (fun c hc => (hmid c (by simp [ha, hc])).1) ha2
  · intro a1 a2 ha ha2
    rw [re_eq]
    apply regexp.matchHere_lits_none
    exact img_straddle a1 a2 _ (ha ▸ hpre) ha2

/-- No poster when the description has no `<img`. -/
theorem leftmost_re_none (d : Str) (h : ¬ ['<', 'i', 'm', 'g'] <:+: d) : regexp.leftmost re d = none := by
  apply regexp.leftmost_none
  intro t ht
  rw [re_eq]
  apply regexp.matchHere_lits_none
  intro hp
  exact h (List.infix_iff_prefix_suffix.2 ⟨t, hp, ht⟩)

/-! ## Helper lemmas: the cycle -/

theorem sliceTo_cons {α : Type} (x : α) (xs : List α) : sliceTo (x :: xs) 1 = some [x] := by
  simp [sliceTo]

theorem rangeLoop_single (p : plugin) (w : World) (item : RSSItem) :
    rangeLoop p w [item] =
      ⟨(loopBody p w item).1,
        match (loopBody p w item).2 with
        | .panic msg => .panicked msg
        | _ => .returned⟩ := by
  unfold rangeLoop
  rcases h : loopBody p w item with ⟨evs, f⟩
  cases f <;> simp [rangeLoop]

/-- A cycle whose feed yields a first item runs the loop body on that item. -/
theorem fetchWatches_of_item (p : plugin) (w : World) (resp : Response) (rss : RSS)
    (item : RSSItem) (rest : List RSSItem)
    (hfeed : w.get (feedURL p) = some resp) (hxml : resp.body.xml = some rss)
    (hitems : rss.Channel.Items = item :: rest) :
    fetchWatches p w =
      ⟨.get (feedURL p) :: (loopBody p w item).1,
        match (loopBody p w item).2 with
        | .panic msg => .panicked msg
        | _ => .returned⟩ := by
  unfold fetchWatches
  simp only [hfeed, hxml, hitems, sliceTo_cons, rangeLoop_single]

theorem uURL_of_first (doc : Document) (a : Element) (more : List Element) (v : Str)
    (hfind : doc.Find ".h-entry a.u-url".toList = a :: more)
    (hhref : a.attr "href".toList = some v) : uURL doc = v := by
  unfold uURL
  rw [hfind]
  show a.AttrOr "href".toList [] = v
  unfold Element.AttrOr
  rw [hhref]

/-- The loop body once both resolution hops have succeeded. -/
theorem loopBody_resolved (p : plugin) (w : World) (item : RSSItem) (resp1 resp2 : Response)
    (doc1 doc2 : Document) (v : Str)
    (hidx : w.get (sectionURL p) = some resp1) (hdoc1 : resp1.body.html = some doc1)
    (hu : uURL doc1 = v) (hv : v ≠ [])
    (hown : w.get (p.blogURL ++ v) = some resp2) (hdoc2 : resp2.body.html = some doc2) :
    loopBody p w item =
      emit (.get (sectionURL p)) (emit (.get (p.blogURL ++ v))
        (if syndicated doc2 ≠ item.Link then publish p w item
         else ([.println "Letterboxd plugin: Watches up to date at".toList], .next))) := by
  unfold loopBody
  simp only [hidx, hdoc1, hu, hv, if_false, hown, hdoc2]

/-! ## Slug, content and poster -/

/-- C4: for every username, watched date and tail `t`, an item whose link is
`https://letterboxd.com/<username>/film/<t>` gets the slug `<date>-<t'>` with `t'`
the tail without its `/` characters; `t'` holds no `/`; and the date `2024-01-01`
with the tail `movie-a/` gives `2024-01-01-movie-a`. -/
theorem slug_film_link (p : plugin) (item : RSSItem) (t : Str) :
    slug p { item with
        Link := "https://letterboxd.com/".toList ++ p.username ++ "/film/".toList ++ t }
      = item.WatchedDate ++ "-".toList ++ t.filter (fun c => c ≠ '/')
    ∧ '/' ∉ t.filter (fun c => c ≠ '/')
    ∧ slug p { item with
        Link := "https://letterboxd.com/".toList ++ p.username ++ "/film/".toList
          ++ "movie-a/".toList
        WatchedDate := "2024-01-01".toList }
      = "2024-01-01-movie-a".toList := by
  refine ⟨?_, ?_, ?_⟩
  · unfold slug
    rw [watchName_of_film_link p _ t rfl]
  · simp [List.mem_filter]
  · unfold slug
    rw [watchName_of_film_link p _ "movie-a/".toList rfl]
    rfl

/-- C9, as the spec states it, fails: the content submitted for a rewatched item
does not begin with `Rewatched `. -/
theorem content_rewatch_counterexample :
    ¬ (∀ item : RSSItem,
        (item.Rewatch = "Yes".toList → "Rewatched ".toList <+: content item) ∧
        (item.Rewatch ≠ "Yes".toList → ¬ "Rewatched ".toList <+: content item)) := by
  intro h
  exact absurd ((h movieARewatched).1 rfl) (by decide)

/-- C9, amended: the content submitted for an item is the fixed opening
`<p class="p-name">` + four symbol characters + space, and what follows that
opening begins with `Rewatched ` when the rewatch flag is `Yes` and does not
when the flag is anything else; the content as a whole never begins with
`Rewatched `. -/
theorem content_rewatch_marker (p : plugin) (item : RSSItem) :
    (formData p item).lookup "content".toList = some [content item]
    ∧ contentOpening <+: content item
    ∧ (item.Rewatch = "Yes".toList →
        "Rewatched ".toList <+: (content item).drop contentOpening.length)
    ∧ (item.Rewatch ≠ "Yes".toList →
        ¬ "Rewatched ".toList <+: (content item).drop contentOpening.length)
    ∧ ¬ "Rewatched ".toList <+: content item := by
  have hdrop : (content item).drop contentOpening.length
      = watchStatus item ++ "<b>".toList ++ item.Title ++ "</b></p>".toList
          ++ item.Description := by
    unfold content
    simp only [List.append_assoc, List.drop_left]
  refine ⟨rfl, ?_, ?_, ?_, ?_⟩
  · unfold content
    simp only [List.append_assoc]
    exact List.prefix_append _ _
  · intro h
    rw [hdrop]
    unfold watchStatus
    rw [if_pos h]
    simp only [List.append_assoc]
    exact List.prefix_append _ _
  · intro h
    rw [hdrop]
    unfold watchStatus
    rw [if_neg h]
    intro hp
    have h2 : "Rewatched ".toList = 'R' :: "ewatched ".toList := rfl
    have h3 : "<b>".toList = '<' :: "b>".toList := rfl
    rw [h2, h3] at hp
    simp only [List.nil_append, List.append_assoc, List.cons_append, List.cons_prefix_cons] at hp
    exact absurd hp.1 (by decide)
  · intro hp
    have h2 : "Rewatched ".toList = 'R' :: "ewatched ".toList := rfl
    have h3 : contentOpening = '<' :: "p class=\"p-name\">\uF8FFüçø ".toList := rfl
    unfold content at hp
    rw [h2, h3] at hp
    simp only [List.append_assoc, List.cons_append, List.cons_prefix_cons] at hp
    exact absurd hp.1 (by decide)

/-- C10, as the spec states it, fails: for the image tag
`<img data-src="x" src="http://x/p.jpg">`, whose `src` attribute is
`http://x/p.jpg`, the poster URL is `x`. -/
theorem filmArt_counterexample :
    ¬ (∀ (attrs : List (Str × Str)) (v : Str),
        attrs.lookup "src".toList = some v → filmArt (imgTag attrs) = v) := by
  intro h
  exact absurd
    (h [("data-src".toList, "x".toList), ("src".toList, "http://x/p.jpg".toList)]
      "http://x/p.jpg".toList (by decide))
    (by decide)

/-- C10, amended: the poster URL is the first group of the leftmost match of
`<img.*?src="(.*?)".*?>` in the description and empty when nothing matches.  It
is empty when the description has no `<img`; it is `url` when the description
is `pre <img mid src="url" rest > post` with no `<img` in `pre`, no double
quote and no newline in `mid` and `url`, and no newline in `rest`; and
`<p><img src="http://x/p.jpg"></p>` gives `http://x/p.jpg`. -/
theorem filmArt_first_match :
    (∀ d : Str, ¬ "<img".toList <:+: d → filmArt d = [])
    ∧ (∀ pre mid url rest post : Str,
        ¬ "<img".toList <:+: pre →
        (∀ c ∈ mid, c ≠ '"' ∧ c ≠ '\n') →
        (∀ c ∈ url, c ≠ '"' ∧ c ≠ '\n') →
        (∀ c ∈ rest, c ≠ '\n') →
        filmArt (pre ++ "<img".toList ++ mid ++ "src=\"".toList ++ url ++ "\"".toList ++ rest
          ++ ">".toList ++ post) = url)
    ∧ filmArt "<p><img src=\"http://x/p.jpg\"></p>".toList = "http://x/p.jpg".toList := by
  refine ⟨?_, ?_, by decide⟩
  · intro d hd
    have h := leftmost_re_none d hd
    simp [filmArt, regexp.FindStringSubmatch, h]
  · intro pre mid url rest post hpre hmid hurl hrest
    obtain ⟨r, hr, hg⟩ := leftmost_re_img pre mid url rest post hpre hmid hurl hrest
    have e : pre ++ "<img".toList ++ mid ++ "src=\"".toList ++ url ++ "\"".toList ++ rest
          ++ ">".toList ++ post
        = pre ++ (['<', 'i', 'm', 'g'] ++ (mid ++ (['s', 'r', 'c', '=', '"'] ++
            (url ++ ('"' :: (rest ++ '>' :: post)))))) := by
      have h1 : "<img".toList = ['<', 'i', 'm', 'g'] := rfl
      have h2 : "src=\"".toList = ['s', 'r', 'c', '=', '"'] := rfl
      have h3 : "\"".toList = ['"'] := rfl
      have h4 : ">".toList = ['>'] := rfl
      rw [h1, h2, h3, h4]
      simp only [List.append_assoc, List.cons_append, List.nil_append]
    rw [e]
    simp only [filmArt, regexp.FindStringSubmatch, hr]
    simp [hg]

/-- The amended C10 at concrete inputs: a description without an image and the
usual diary description with text before and after the image. -/
theorem filmArt_first_match_witness :
    filmArt "<p>No poster.</p>".toList = []
    ∧ filmArt ("<p>".toList ++ "<img".toList ++ " ".toList ++ "src=\"".toList
        ++ "http://x/p.jpg".toList ++ "\"".toList ++ "/".toList ++ ">".toList
        ++ "</p> <p>Good.</p>".toList) = "http://x/p.jpg".toList :=
  ⟨filmArt_first_match.1 _ (by decide),
   filmArt_first_match.2.1 "<p>".toList " ".toList "http://x/p.jpg".toList "/".toList
     "</p> <p>Good.</p>".toList (by decide) (by decide) (by decide) (by decide)⟩

/-! ## The cycle -/

/-- The whole run once the feed has yielded an item and both hops succeeded. -/
theorem fetchWatches_resolved (p : plugin) (w : World) (resp : Response) (rss : RSS)
    (item : RSSItem) (rest : List RSSItem) (resp1 resp2 : Response) (doc1 doc2 : Document)
    (v : Str)
    (hfeed : w.get (feedURL p) = some resp) (hxml : resp.body.xml = some rss)
    (hitems : rss.Channel.Items = item :: rest)
    (hidx : w.get (sectionURL p) = some resp1) (hdoc1 : resp1.body.html = some doc1)
    (hu : uURL doc1 = v) (hv : v ≠ [])
    (hown : w.get (p.blogURL ++ v) = some resp2) (hdoc2 : resp2.body.html = some doc2) :
    fetchWatches p w =
      if syndicated doc2 ≠ item.Link then
        ⟨.get (feedURL p) :: .get (sectionURL p) :: .get (p.blogURL ++ v) :: (publish p w item).1,
          match (publish p w item).2 with
          | .panic msg => .panicked msg
          | _ => .returned⟩
      else
        ⟨[.get (feedURL p), .get (sectionURL p), .get (p.blogURL ++ v),
          .println "Letterboxd plugin: Watches up to date at".toList], .returned⟩ := by
  rw [fetchWatches_of_item p w resp rss item rest hfeed hxml hitems,
    loopBody_resolved p w item resp1 resp2 doc1 doc2 v hidx hdoc1 hu hv hown hdoc2]
  by_cases h : syndicated doc2 = item.Link
  · simp only [h, ne_eq, not_true_eq_false, if_false, emit]
  · simp only [h, ne_eq, not_false_eq_true, if_true, emit]

/-- The publish branch always builds the request first. -/
theorem publish_trace (p : plugin) (w : World) (item : RSSItem) :
    ∃ evs, (publish p w item).1
      = .newRequest "POST".toList (micropubURL p) (formData p item) :: evs
      ∧ (∀ req, Event.post req ∈ evs → req = micropubRequest p item)
      ∧ (w.newRequestOk "POST".toList (micropubURL p) = true →
          Event.post (micropubRequest p item) ∈ evs)
      ∧ (∀ u, Event.get u ∉ evs) := by
  unfold publish
  by_cases hok : w.newRequestOk "POST".toList (micropubURL p) = true
  · simp only [hok, if_true, emit]
    cases hs : w.send (micropubRequest p item) with
    | none => exact ⟨_, rfl, by simp, by simp, by simp⟩
    | some res =>
      dsimp only
      cases ht : res.body.text with
      | none => exact ⟨_, rfl, by simp, by simp, by simp⟩
      | some resBody => exact ⟨_, rfl, by simp, by simp, by simp⟩
  · simp only [hok, emit]
    exact ⟨[], rfl, by simp, by simp [hok], by simp⟩

/-- Every run either resolves the latest own post and then decides, or stops
before that: then it sends nothing, and it returns unless every GET it made
was answered. -/
theorem fetchWatches_cases (p : plugin) (w : World) :
    (∃ resp rss item rest resp1 resp2 doc1 doc2,
        w.get (feedURL p) = some resp ∧ resp.body.xml = some rss
        ∧ rss.Channel.Items = item :: rest
        ∧ w.get (sectionURL p) = some resp1 ∧ resp1.body.html = some doc1
        ∧ uURL doc1 ≠ []
        ∧ w.get (p.blogURL ++ uURL doc1) = some resp2 ∧ resp2.body.html = some doc2)
    ∨ ((∀ e ∈ (fetchWatches p w).trace, (∃ u, e = .get u) ∨ (∃ msg, e = .println msg))
        ∧ ((fetchWatches p w).exit = .returned
            ∨ ∀ url, Event.get url ∈ (fetchWatches p w).trace → w.get url ≠ none)) := by
  cases hf : w.get (feedURL p) with
  | none =>
    right
    have hrun : fetchWatches p w =
        ⟨[.get (feedURL p), .println "Error fetching Letterboxd feed:".toList], .returned⟩ := by
      unfold fetchWatches; simp only [hf]
    rw [hrun]; simp
  | some resp =>
    cases hx : resp.body.xml with
    | none =>
      right
      have hrun : fetchWatches p w =
          ⟨[.get (feedURL p), .println "Error parsing Letterboxd feed:".toList], .returned⟩ := by
        unfold fetchWatches; simp only [hf, hx]
      rw [hrun]; simp
    | some rss =>
      cases hi : rss.Channel.Items with
      | nil =>
        right
        have hrun : fetchWatches p w =
            ⟨[.get (feedURL p)],
              .panicked "slice bounds out of range [:1] with capacity 0".toList⟩ := by
          unfold fetchWatches; simp only [hf, hx, hi]; rfl
        rw [hrun]
        refine ⟨by simp, Or.inr ?_⟩
        intro url hurl
        simp only [List.mem_singleton, Event.get.injEq] at hurl
        rw [hurl, hf]; simp
      | cons item rest =>
        have hrun := fetchWatches_of_item p w resp rss item rest hf hx hi
        cases h1 : w.get (sectionURL p) with
        | none =>
          right
          have hb : loopBody p w item =
              ([.get (sectionURL p), .println "Error fetching HTML page:".toList], .ret) := by
            unfold loopBody; simp only [h1, emit]
          rw [hrun, hb]; simp
        | some resp1 =>
          cases h2 : resp1.body.html with
          | none =>
            right
            have hb : loopBody p w item =
                ([.get (sectionURL p), .println "Error parsing HTML page:".toList], .ret) := by
              unfold loopBody; simp only [h1, h2, emit]
            rw [hrun, hb]; simp
          | some doc1 =>
            by_cases hu : uURL doc1 = []
            · right
              have hb : loopBody p w item =
                  ([.get (sectionURL p), .println "Error: u-url not found".toList], .ret) := by
                unfold loopBody; simp only [h1, h2, hu, if_true, emit]
              rw [hrun, hb]; simp
            · cases h3 : w.get (p.blogURL ++ uURL doc1) with
              | none =>
                right
                have hb : loopBody p w item =
                    ([.get (sectionURL p), .get (p.blogURL ++ uURL doc1),
                      .println "Error fetching u-url HTML page:".toList], .ret) := by
                  unfold loopBody; simp only [h1, h2, hu, if_false, h3, emit]
                rw [hrun, hb]; simp
              | some resp2 =>
                cases h4 : resp2.body.html with
                | none =>
                  right
                  have hb : loopBody p w item =
                      ([.get (sectionURL p), .get (p.blogURL ++ uURL doc1),
                        .println "Error parsing u-url HTML page:".toList], .ret) := by
                    unfold loopBody; simp only [h1, h2, hu, if_false, h3, h4, emit]
                  rw [hrun, hb]; simp
                | some doc2 =>
                  left
                  refine ⟨resp, rss, item, rest, resp1, resp2, doc1, doc2,
                    ?_, ?_, ?_, ?_, ?_, ?_, ?_, ?_⟩ <;> first | rfl | assumption

theorem mem_posts (r : Run) (req : Request) : req ∈ r.posts ↔ Event.post req ∈ r.trace := by
  unfold Run.posts
  rw [List.mem_filterMap]
  constructor
  · rintro ⟨e, he, h⟩
    cases e <;> simp at h
    subst h
    exact he
  · intro h
    exact ⟨_, h, rfl⟩

/-- How the publish branch ends. -/
theorem publish_flow (p : plugin) (w : World) (item : RSSItem) :
    ((w.newRequestOk "POST".toList (micropubURL p) = false
        ∨ w.send (micropubRequest p item) = none
        ∨ ∃ res, w.send (micropubRequest p item) = some res ∧ res.body.text = none) →
      (publish p w item).2 = .panic "error creating request".toList)
    ∧ (w.newRequestOk "POST".toList (micropubURL p) = true →
        ∀ res resBody, w.send (micropubRequest p item) = some res →
          res.body.text = some resBody →
          publish p w item =
            ([.newRequest "POST".toList (micropubURL p) (formData p item),
              .post (micropubRequest p item), .println resBody], .next)) := by
  constructor
  · intro hfail
    unfold publish
    cases hok : w.newRequestOk "POST".toList (micropubURL p) with
    | false => simp [emit]
    | true =>
      simp only [if_true, emit]
      rcases hfail with h | h | ⟨res, h, ht⟩
      · rw [hok] at h; cases h
      · rw [h]
      · rw [h]; dsimp only; rw [ht]
  · intro hok res resBody hs ht
    unfold publish
    simp only [hok, if_true, emit, hs, ht]

/-- C1: when the feed yields a first item and both resolution hops succeed, the
cycle builds the publish request if and only if the recorded syndication source
(`syndicated`: the href of the `.letterboxd` link of the latest own post, empty
when there is none) differs from the item's link, and, `http.NewRequest` not
failing, it sends a publish request if and only if they differ; when they are
equal no request is sent and the cycle returns. -/
theorem fetchWatches_publish_iff (p : plugin) (w : World) (resp : Response) (rss : RSS)
    (item : RSSItem) (rest : List RSSItem) (resp1 resp2 : Response) (doc1 doc2 : Document)
    (a : Element) (more : List Element) (v : Str)
    (hfeed : w.get (feedURL p) = some resp) (hxml : resp.body.xml = some rss)
    (hitems : rss.Channel.Items = item :: rest)
    (hidx : w.get (sectionURL p) = some resp1) (hdoc1 : resp1.body.html = some doc1)
    (hfind : doc1.Find ".h-entry a.u-url".toList = a :: more)
    (hhref : a.attr "href".toList = some v) (hv : v ≠ [])
    (hown : w.get (p.blogURL ++ v) = some resp2) (hdoc2 : resp2.body.html = some doc2) :
    ((∃ m u b, Event.newRequest m u b ∈ (fetchWatches p w).trace) ↔
        syndicated doc2 ≠ item.Link)
    ∧ (w.newRequestOk "POST".toList (micropubURL p) = true →
        ((∃ req, req ∈ (fetchWatches p w).posts) ↔ syndicated doc2 ≠ item.Link))
    ∧ (syndicated doc2 = item.Link →
        (fetchWatches p w).posts = [] ∧ (fetchWatches p w).exit = .returned)
    ∧ (∀ req, req ∈ (fetchWatches p w).posts → req = micropubRequest p item)
    ∧ (doc2.Find ".letterboxd".toList = [] → syndicated doc2 = [])
    ∧ (∀ l, doc2.Find ".letterboxd".toList = [l] →
        syndicated doc2 = l.AttrOr "href".toList []) := by
  have hrun := fetchWatches_resolved p w resp rss item rest resp1 resp2 doc1 doc2 v
    hfeed hxml hitems hidx hdoc1 (uURL_of_first doc1 a more v hfind hhref) hv hown hdoc2
  obtain ⟨evs, hevs, hpost, hsent, _⟩ := publish_trace p w item
  by_cases h : syndicated doc2 = item.Link
  · have hrun2 : fetchWatches p w =
        ⟨[.get (feedURL p), .get (sectionURL p), .get (p.blogURL ++ v),
          .println "Letterboxd plugin: Watches up to date at".toList], .returned⟩ := by
      rw [hrun]; simp only [h, ne_eq, not_true_eq_false, if_false]
    refine ⟨?_, ?_, ?_, ?_, ?_, ?_⟩
    · rw [hrun2]; simp [h]
    · intro _; rw [hrun2]; simp [h, Run.posts]
    · intro _; rw [hrun2]; simp [Run.posts]
    · intro req hreq; rw [hrun2] at hreq; simp [Run.posts] at hreq
    · intro hnone; unfold syndicated; rw [hnone]; rfl
    · intro l hl; unfold syndicated; rw [hl]; rfl
  · have hrun2 : (fetchWatches p w).trace =
        .get (feedURL p) :: .get (sectionURL p) :: .get (p.blogURL ++ v)
          :: .newRequest "POST".toList (micropubURL p) (formData p item) :: evs := by
      rw [hrun]; simp only [h, ne_eq, not_false_eq_true, if_true, hevs]
    refine ⟨?_, ?_, ?_, ?_, ?_, ?_⟩
    · simp only [hrun2, h, ne_eq, not_false_eq_true, iff_true]
      exact ⟨"POST".toList, micropubURL p, formData p item, by simp⟩
    · intro hok
      simp only [h, ne_eq, not_false_eq_true, iff_true]
      refine ⟨micropubRequest p item, ?_⟩
      rw [mem_posts, hrun2]
      simp [hsent hok]
    · intro h'; exact absurd h' h
    · intro req hreq
      rw [mem_posts, hrun2] at hreq
      simp at hreq
      exact hpost req hreq
    · intro hnone; unfold syndicated; rw [hnone]; rfl
    · intro l hl; unfold syndicated; rw [hl]; rfl

/-- C1 at the end-to-end scenario (`demoWorld`, the recorded source is empty and
the request is sent). -/
theorem fetchWatches_publish_iff_witness :
    (fetchWatches demoPlugin demoWorld).posts = [micropubRequest demoPlugin movieA]
    ∧ ((∃ req, req ∈ (fetchWatches demoPlugin demoWorld).posts) ↔
        syndicated (postPage ⟨"hello".toList, none⟩) ≠ movieA.Link) :=
  ⟨by decide,
   (fetchWatches_publish_iff demoPlugin demoWorld (feedResponse demoFeed) demoFeed movieA []
      (htmlResponse (indexPage demoPlugin demoSite))
      (htmlResponse (postPage ⟨"hello".toList, none⟩))
      (indexPage demoPlugin demoSite) (postPage ⟨"hello".toList, none⟩)
      (anchor "/watches/hello".toList) [] "/watches/hello".toList
      rfl rfl rfl rfl rfl rfl rfl (by decide) rfl rfl).2.1 rfl⟩

/-- C6: for every feed item, when the section index page has no permalink
anchor (nothing matches `.h-entry a.u-url`, or the first match has no href or an
empty one), the cycle fetches the feed and the section index only, reports
`u-url not found`, sends no publish request and returns normally. -/
theorem fetchWatches_no_anchor (p : plugin) (w : World) (resp : Response) (rss : RSS)
    (item : RSSItem) (rest : List RSSItem) (resp1 : Response) (doc1 : Document)
    (hfeed : w.get (feedURL p) = some resp) (hxml : resp.body.xml = some rss)
    (hitems : rss.Channel.Items = item :: rest)
    (hidx : w.get (sectionURL p) = some resp1) (hdoc1 : resp1.body.html = some doc1)
    (hno : doc1.Find ".h-entry a.u-url".toList = [] ∨
      ∃ a more, doc1.Find ".h-entry a.u-url".toList = a :: more ∧
        (a.attr "href".toList = none ∨ a.attr "href".toList = some [])) :
    fetchWatches p w =
        ⟨[.get (feedURL p), .get (sectionURL p), .println "Error: u-url not found".toList],
          .returned⟩
    ∧ (fetchWatches p w).gets = [feedURL p, sectionURL p]
    ∧ (fetchWatches p w).posts = []
    ∧ (fetchWatches p w).exit = .returned := by
  have hu : uURL doc1 = [] := by
    rcases hno with h | ⟨a, more, h, ha | ha⟩
    · unfold uURL; rw [h]; rfl
    · unfold uURL; rw [h]
      show a.AttrOr "href".toList [] = []
      unfold Element.AttrOr; rw [ha]
    · exact uURL_of_first doc1 a more [] h ha
  have hrun : fetchWatches p w =
      ⟨[.get (feedURL p), .get (sectionURL p), .println "Error: u-url not found".toList],
        .returned⟩ := by
    rw [fetchWatches_of_item p w resp rss item rest hfeed hxml hitems]
    unfold loopBody
    simp only [hidx, hdoc1, hu, if_true, emit]
  rw [hrun]
  exact ⟨rfl, rfl, rfl, rfl⟩

/-- C6 on a blog whose section has no post yet. -/
theorem fetchWatches_no_anchor_witness :
    (fetchWatches demoPlugin emptySectionWorld).gets
        = [feedURL demoPlugin, sectionURL demoPlugin]
    ∧ (fetchWatches demoPlugin emptySectionWorld).posts = []
    ∧ (fetchWatches demoPlugin emptySectionWorld).exit = .returned :=
  (fetchWatches_no_anchor demoPlugin emptySectionWorld (feedResponse demoFeed) demoFeed movieA []
    (htmlResponse (indexPage demoPlugin [])) (indexPage demoPlugin [])
    rfl rfl rfl rfl rfl (Or.inl rfl)).2

/-- C8 (the code departs from it): a feed that parses but has no item makes the
slice expression `rss.Channel.Items[:1]` panic; the cycle does not return. -/
theorem fetchWatches_empty_feed_panics (p : plugin) (w : World) (resp : Response) (rss : RSS)
    (hfeed : w.get (feedURL p) = some resp) (hxml : resp.body.xml = some rss)
    (hitems : rss.Channel.Items = []) :
    fetchWatches p w =
      ⟨[.get (feedURL p)],
        .panicked "slice bounds out of range [:1] with capacity 0".toList⟩ := by
  unfold fetchWatches
  simp only [hfeed, hxml, hitems]
  rfl

/-- C8 at the failing input: the diary serves a feed without items. -/
theorem fetchWatches_empty_feed_panics_witness :
    (fetchWatches demoPlugin emptyFeedWorld).exit
      = .panicked "slice bounds out of range [:1] with capacity 0".toList := by
  rw [fetchWatches_empty_feed_panics demoPlugin emptyFeedWorld (feedResponse emptyFeed)
    emptyFeed rfl rfl rfl]

/-- C7 (the code departs from it): once the cycle has reached the publish step,
a failure to build the request, a transport failure of the POST or a failure to
read the response body makes the cycle panic. -/
theorem fetchWatches_publish_failure_panics (p : plugin) (w : World) (resp : Response)
    (rss : RSS) (item : RSSItem) (rest : List RSSItem) (resp1 resp2 : Response)
    (doc1 doc2 : Document) (a : Element) (more : List Element) (v : Str)
    (hfeed : w.get (feedURL p) = some resp) (hxml : resp.body.xml = some rss)
    (hitems : rss.Channel.Items = item :: rest)
    (hidx : w.get (sectionURL p) = some resp1) (hdoc1 : resp1.body.html = some doc1)
    (hfind : doc1.Find ".h-entry a.u-url".toList = a :: more)
    (hhref : a.attr "href".toList = some v) (hv : v ≠ [])
    (hown : w.get (p.blogURL ++ v) = some resp2) (hdoc2 : resp2.body.html = some doc2)
    (hne : syndicated doc2 ≠ item.Link)
    (hfail : w.newRequestOk "POST".toList (micropubURL p) = false
      ∨ w.send (micropubRequest p item) = none
      ∨ ∃ res, w.send (micropubRequest p item) = some res ∧ res.body.text = none) :
    (fetchWatches p w).exit = .panicked "error creating request".toList := by
  rw [fetchWatches_resolved p w resp rss item rest resp1 resp2 doc1 doc2 v
    hfeed hxml hitems hidx hdoc1 (uURL_of_first doc1 a more v hfind hhref) hv hown hdoc2]
  simp only [hne, ne_eq, not_false_eq_true, if_true, (publish_flow p w item).1 hfail]

/-- C7 at the failing input: the blog answers the three GETs and is unreachable
when the POST is sent. -/
theorem fetchWatches_publish_failure_panics_witness :
    (fetchWatches demoPlugin postDownWorld).exit
      = .panicked "error creating request".toList :=
  fetchWatches_publish_failure_panics demoPlugin postDownWorld (feedResponse demoFeed) demoFeed
    movieA [] (htmlResponse (indexPage demoPlugin demoSite))
    (htmlResponse (postPage ⟨"hello".toList, none⟩))
    (indexPage demoPlugin demoSite) (postPage ⟨"hello".toList, none⟩)
    (anchor "/watches/hello".toList) [] "/watches/hello".toList
    rfl rfl rfl rfl rfl rfl rfl (by decide) rfl rfl (by decide) (Or.inr (Or.inl rfl))

theorem posts_nil_of_events (r : Run)
    (h : ∀ e ∈ r.trace, (∃ u, e = .get u) ∨ (∃ msg, e = .println msg)) : r.posts = [] := by
  rw [List.eq_nil_iff_forall_not_mem]
  intro req hreq
  rw [mem_posts] at hreq
  rcases h _ hreq with ⟨u, hu⟩ | ⟨msg, hm⟩
  · cases hu
  · cases hm

/-- C5, as the spec states it, fails: in `errorPageWorld` the page of the latest
own post is answered with status 500, and the cycle publishes all the same. -/
theorem fetchWatches_status_counterexample :
    ¬ (∀ (p : plugin) (w : World) (url : Str) (resp : Response),
        Event.get url ∈ (fetchWatches p w).trace → w.get url = some resp →
        ¬ (200 ≤ resp.status ∧ resp.status < 300) →
        (fetchWatches p w).posts = []) := by
  intro h
  exact absurd
    (h demoPlugin errorPageWorld
      (demoPlugin.blogURL ++ "/watches/2024-01-01-movie-a".toList)
      ⟨500, ⟨none, some ⟨fun _ => []⟩, some "Internal Server Error".toList⟩⟩
      (by decide) rfl (by decide))
    (by decide)

theorem publish_mapStatus (p : plugin) (w : World) (f : Str → Nat → Nat)
    (g : Request → Nat → Nat) (item : RSSItem) :
    publish p (w.mapStatus f g) item = publish p w item := by
  unfold publish
  by_cases hok : w.newRequestOk "POST".toList (micropubURL p) = true
  · have hok2 : (w.mapStatus f g).newRequestOk "POST".toList (micropubURL p) = true := hok
    simp only [hok, hok2, if_true]
    have hs : (w.mapStatus f g).send (micropubRequest p item)
        = match w.send (micropubRequest p item) with
          | none => none
          | some r => some ⟨g (micropubRequest p item) r.status, r.body⟩ := rfl
    rw [hs]
    cases w.send (micropubRequest p item) <;> rfl
  · have hok2 : ¬ (w.mapStatus f g).newRequestOk "POST".toList (micropubURL p) = true := hok
    simp only [hok, hok2, if_false]
    rfl

theorem get_mapStatus (w : World) (f : Str → Nat → Nat) (g : Request → Nat → Nat) (url : Str) :
    (w.mapStatus f g).get url
      = match w.get url with
        | none => none
        | some r => some ⟨f url r.status, r.body⟩ := rfl

theorem loopBody_mapStatus (p : plugin) (w : World) (f : Str → Nat → Nat)
    (g : Request → Nat → Nat) (item : RSSItem) :
    loopBody p (w.mapStatus f g) item = loopBody p w item := by
  unfold loopBody
  rw [get_mapStatus]
  cases h1 : w.get (sectionURL p) with
  | none => rfl
  | some resp1 =>
    dsimp only
    cases h2 : resp1.body.html with
    | none => rfl
    | some doc1 =>
      dsimp only
      by_cases hu : uURL doc1 = []
      · simp only [hu, if_true]
      · simp only [hu, if_false]
        rw [get_mapStatus]
        cases h3 : w.get (p.blogURL ++ uURL doc1) with
        | none => rfl
        | some resp2 =>
          dsimp only
          cases h4 : resp2.body.html with
          | none => rfl
          | some doc2 =>
            dsimp only
            rw [publish_mapStatus]

theorem rangeLoop_mapStatus (p : plugin) (w : World) (f : Str → Nat → Nat)
    (g : Request → Nat → Nat) (items : List RSSItem) :
    rangeLoop p (w.mapStatus f g) items = rangeLoop p w items := by
  induction items with
  | nil => rfl
  | cons item rest ih =>
    unfold rangeLoop
    rw [loopBody_mapStatus, ih]

/-- No status code reaches the cycle: changing the status of every answer
leaves the run as it is. -/
theorem fetchWatches_mapStatus (p : plugin) (w : World) (f : Str → Nat → Nat)
    (g : Request → Nat → Nat) :
    fetchWatches p (w.mapStatus f g) = fetchWatches p w := by
  unfold fetchWatches
  rw [get_mapStatus]
  cases h1 : w.get (feedURL p) with
  | none => rfl
  | some resp =>
    dsimp only
    cases h2 : resp.body.xml with
    | none => rfl
    | some rss =>
      dsimp only
      cases h3 : sliceTo rss.Channel.Items 1 with
      | none => rfl
      | some lastItem =>
        dsimp only
        rw [rangeLoop_mapStatus]

/-- C5, amended: when one of the GETs of a cycle fails at the transport level
(`http.Get` returns an error), the cycle is aborted: no publish request is
built or sent and the cycle returns.  The status code of an answered GET (feed,
section index or own-entry page) is not looked at: whatever statuses the
answers carry, the run (calls made, requests sent, way of ending) is the same,
so a non-2xx answer is processed like any other. -/
theorem fetchWatches_get_error (p : plugin) (w : World) :
    (∀ url, Event.get url ∈ (fetchWatches p w).trace → w.get url = none →
        (fetchWatches p w).posts = []
        ∧ (∀ m u b, Event.newRequest m u b ∉ (fetchWatches p w).trace)
        ∧ (fetchWatches p w).exit = .returned)
    ∧ (∀ (f : Str → Nat → Nat) (g : Request → Nat → Nat),
        fetchWatches p (w.mapStatus f g) = fetchWatches p w) := by
  refine ⟨?_, fun f g => fetchWatches_mapStatus p w f g⟩
  intro url hget herr
  rcases fetchWatches_cases p w with
    ⟨resp, rss, item, rest, resp1, resp2, doc1, doc2, hf, hx, hi, h1, h2, hu, h3, h4⟩ | ⟨hev, hexit⟩
  · exfalso
    have hrun := fetchWatches_resolved p w resp rss item rest resp1 resp2 doc1 doc2 (uURL doc1)
      hf hx hi h1 h2 rfl hu h3 h4
    obtain ⟨evs, hevs, _, _, hnoget⟩ := publish_trace p w item
    rw [hrun] at hget
    by_cases hs : syndicated doc2 = item.Link
    · simp only [hs, ne_eq, not_true_eq_false, if_false] at hget
      simp at hget
      rcases hget with h | h | h <;> rw [h] at herr <;> simp_all
    · simp only [hs, ne_eq, not_false_eq_true, if_true, hevs] at hget
      simp at hget
      rcases hget with h | h | h | h
      · rw [h] at herr; simp_all
      · rw [h] at herr; simp_all
      · rw [h] at herr; simp_all
      · exact hnoget url h
  · refine ⟨posts_nil_of_events _ hev, ?_, ?_⟩
    · intro m u b hmem
      rcases hev _ hmem with ⟨u', hu'⟩ | ⟨msg, hm⟩
      · cases hu'
      · cases hm
    · rcases hexit with h | h
      · exact h
      · exact absurd herr (h url hget)

/-- The amended C5 at concrete worlds: the section index cannot be fetched
(`blogDownWorld`), and every GET is answered with status 503
(`allErrorStatusWorld`), where the cycle publishes as in `demoWorld`. -/
theorem fetchWatches_get_error_witness :
    ((fetchWatches demoPlugin blogDownWorld).posts = []
      ∧ (∀ m u b, Event.newRequest m u b ∉ (fetchWatches demoPlugin blogDownWorld).trace)
      ∧ (fetchWatches demoPlugin blogDownWorld).exit = .returned)
    ∧ (allErrorStatusWorld.get (feedURL demoPlugin)).map (fun r => r.status) = some 503
    ∧ (allErrorStatusWorld.get (sectionURL demoPlugin)).map (fun r => r.status) = some 503
    ∧ (allErrorStatusWorld.get (demoPlugin.blogURL ++ "/watches/hello".toList)).map
        (fun r => r.status) = some 503
    ∧ fetchWatches demoPlugin allErrorStatusWorld = fetchWatches demoPlugin demoWorld
    ∧ (fetchWatches demoPlugin allErrorStatusWorld).posts
        = [micropubRequest demoPlugin movieA] :=
  ⟨(fetchWatches_get_error demoPlugin blogDownWorld).1 (sectionURL demoPlugin) (by decide) rfl,
   by decide, by decide, by decide,
   (fetchWatches_get_error demoPlugin demoWorld).2 (fun _ _ => 503) (fun _ _ => 500),
   by decide⟩

/-- A text whose first character does not occur in `a` occurs in `a ++ d` only
inside `d`. -/
theorem infix_of_head_not_mem (c : Char) (n d : Str) :
    ∀ a : Str, c ∉ a → (c :: n) <:+: a ++ d → (c :: n) <:+: d := by
  intro a
  induction a with
  | nil => intro _ h; simpa using h
  | cons x a ih =>
    intro hc h
    rw [List.cons_append, List.infix_cons_iff] at h
    rcases h with h | h
    · rw [List.cons_prefix_cons] at h
      exact absurd h.1 (fun e => hc (by simp [e]))
    · exact ih (fun hm => hc (by simp [hm])) h

/-- C3: every publish request a cycle sends is the POST to the Micropub
endpoint for the first feed item, and its form has exactly the four fields
section (the configured section), slug (the item's slug), syndication (the
item's link, unchanged) and content, where the content holds `<b>Title</b>`,
then `</p>`, then the raw description.  For the item with title `Movie A`,
watched date `2024-01-01`, no rewatch and the link
`https://letterboxd.com/<username>/film/movie-a/`, the slug is
`2024-01-01-movie-a`, the content contains `<b>Movie A</b>`, and it does not
contain `Rewatched` (the description of the scenario's item, which is empty,
not containing it). -/
theorem fetchWatches_post_form (p : plugin) (w : World) (req : Request)
    (h : req ∈ (fetchWatches p w).posts) :
    ∃ resp rss item rest,
      w.get (feedURL p) = some resp ∧ resp.body.xml = some rss
      ∧ rss.Channel.Items = item :: rest
      ∧ req.method = "POST".toList ∧ req.url = p.blogURL ++ "/micropub".toList
      ∧ req.body =
          [("section".toList, [p.sectionName]), ("slug".toList, [slug p item]),
           ("syndication".toList, [item.Link]), ("content".toList, [content item])]
      ∧ content item =
          contentOpening ++ watchStatus item ++ ("<b>".toList ++ item.Title ++ "</b>".toList)
            ++ "</p>".toList ++ item.Description
      ∧ (item.Title = "Movie A".toList → item.WatchedDate = "2024-01-01".toList →
          item.Rewatch ≠ "Yes".toList →
          item.Link = "https://letterboxd.com/".toList ++ p.username ++ "/film/".toList
            ++ "movie-a/".toList →
          slug p item = "2024-01-01-movie-a".toList
          ∧ "<b>Movie A</b>".toList <:+: content item
          ∧ (¬ "Rewatched".toList <:+: item.Description →
              ¬ "Rewatched".toList <:+: content item)) := by
  rcases fetchWatches_cases p w with
    ⟨resp, rss, item, rest, resp1, resp2, doc1, doc2, hf, hx, hi, h1, h2, hu, h3, h4⟩ | ⟨hev, _⟩
  · have hrun := fetchWatches_resolved p w resp rss item rest resp1 resp2 doc1 doc2 (uURL doc1)
      hf hx hi h1 h2 rfl hu h3 h4
    obtain ⟨evs, hevs, hpost, _, _⟩ := publish_trace p w item
    rw [mem_posts, hrun] at h
    have hreq : req = micropubRequest p item := by
      by_cases hs : syndicated doc2 = item.Link
      · simp only [hs, ne_eq, not_true_eq_false, if_false] at h
        simp at h
      · simp only [hs, ne_eq, not_false_eq_true, if_true, hevs] at h
        simp at h
        exact hpost req h
    subst hreq
    refine ⟨resp, rss, item, rest, hf, hx, hi, rfl, rfl, rfl, ?_, ?_⟩
    · unfold content
      simp only [List.append_assoc]
      rfl
    · intro ht hd hr hl
      refine ⟨?_, ?_, ?_⟩
      · unfold slug
        rw [watchName_of_film_link p item "movie-a/".toList hl, hd]
        rfl
      · unfold content
        rw [ht]
        refine ⟨contentOpening ++ watchStatus item, "</p>".toList ++ item.Description, ?_⟩
        simp only [List.append_assoc]
        rfl
      · intro hdesc hc
        apply hdesc
        have hcont : content item
            = "<p class=\"p-name\">\uF8FFüçø <b>Movie A</b></p>".toList ++ item.Description := by
          unfold content watchStatus
          rw [ht, if_neg hr]
          rfl
        rw [hcont] at hc
        exact infix_of_head_not_mem 'R' "ewatched".toList item.Description _ (by decide) hc
  · rw [posts_nil_of_events _ hev] at h
    simp at h

/-- C3 at the end-to-end scenario: the request sent in `demoWorld`. -/
theorem fetchWatches_post_form_witness :
    ∃ resp rss item rest,
      demoWorld.get (feedURL demoPlugin) = some resp ∧ resp.body.xml = some rss
      ∧ rss.Channel.Items = item :: rest
      ∧ (micropubRequest demoPlugin movieA).method = "POST".toList
      ∧ (micropubRequest demoPlugin movieA).url
          = demoPlugin.blogURL ++ "/micropub".toList
      ∧ (micropubRequest demoPlugin movieA).body =
          [("section".toList, [demoPlugin.sectionName]), ("slug".toList, [slug demoPlugin item]),
           ("syndication".toList, [item.Link]), ("content".toList, [content item])]
      ∧ content item =
          contentOpening ++ watchStatus item ++ ("<b>".toList ++ item.Title ++ "</b>".toList)
            ++ "</p>".toList ++ item.Description
      ∧ (item.Title = "Movie A".toList → item.WatchedDate = "2024-01-01".toList →
          item.Rewatch ≠ "Yes".toList →
          item.Link = "https://letterboxd.com/".toList ++ demoPlugin.username
            ++ "/film/".toList ++ "movie-a/".toList →
          slug demoPlugin item = "2024-01-01-movie-a".toList
          ∧ "<b>Movie A</b>".toList <:+: content item
          ∧ (¬ "Rewatched".toList <:+: item.Description →
              ¬ "Rewatched".toList <:+: content item)) :=
  fetchWatches_post_form demoPlugin demoWorld (micropubRequest demoPlugin movieA) (by decide)

/-! ## Two cycles against the own site -/

theorem syndicated_postPage (q : Post) : syndicated (postPage q) = q.recorded := by
  rcases q with ⟨sl, _ | y⟩ <;> rfl

/-- One cycle against a blog whose newest post is `q0`. -/
theorem fetchWatches_siteWorld (p : plugin) (rss : RSS) (item : RSSItem) (rest : List RSSItem)
    (q0 : Post) (older : Site)
    (hitems : rss.Channel.Items = item :: rest) (hsep : ¬ p.blogURL <+: feedURL p) :
    fetchWatches p (siteWorld p rss (q0 :: older)) =
      if q0.recorded ≠ item.Link then
        ⟨[.get (feedURL p), .get (sectionURL p), .get (p.blogURL ++ permalink p q0),
          .newRequest "POST".toList (micropubURL p) (formData p item),
          .post (micropubRequest p item), .println []], .returned⟩
      else
        ⟨[.get (feedURL p), .get (sectionURL p), .get (p.blogURL ++ permalink p q0),
          .println "Letterboxd plugin: Watches up to date at".toList], .returned⟩ := by
  have hne1 : sectionURL p ≠ feedURL p := by
    intro e
    apply hsep
    rw [← e, sectionURL, List.append_assoc]
    exact List.prefix_append _ _
  have hne2 : p.blogURL ++ permalink p q0 ≠ feedURL p := by
    intro e
    apply hsep
    rw [← e]
    exact List.prefix_append _ _
  have hne3 : p.blogURL ++ permalink p q0 ≠ sectionURL p := by
    intro e
    have h1 : "/".toList = ['/'] := rfl
    rw [sectionURL, permalink, h1] at e
    simp at e
  have hfeed : (siteWorld p rss (q0 :: older)).get (feedURL p) = some (feedResponse rss) := by
    simp [siteWorld]
  have hidx : (siteWorld p rss (q0 :: older)).get (sectionURL p)
      = some (htmlResponse (indexPage p (q0 :: older))) := by
    simp [siteWorld, hne1]
  have hown : (siteWorld p rss (q0 :: older)).get (p.blogURL ++ permalink p q0)
      = some (htmlResponse (postPage q0)) := by
    simp [siteWorld, hne2, hne3]
  have hu : uURL (indexPage p (q0 :: older)) = permalink p q0 :=
    uURL_of_first _ (anchor (permalink p q0)) (older.map fun q => anchor (permalink p q)) _
      rfl rfl
  have hv : permalink p q0 ≠ [] := by
    have h1 : "/".toList = ['/'] := rfl
    rw [permalink, h1]
    simp
  rw [fetchWatches_resolved p _ _ rss item rest _ _ _ _ _ hfeed rfl hitems hidx rfl hu hv hown
    rfl, syndicated_postPage]
  by_cases hs : q0.recorded = item.Link
  · simp only [hs, ne_eq, not_true_eq_false, if_false]
  · simp only [hs, ne_eq, not_false_eq_true, if_true]
    rw [(publish_flow p (siteWorld p rss (q0 :: older)) item).2 rfl _ [] rfl rfl]

/-- C2: over the explicit site state, where an accepted publish request makes
the newest entry a post whose `.letterboxd` link is the submitted syndication
value: for every feed whose first item has a link that the latest own post does
not record, two consecutive cycles with the same feed send exactly one publish
request in total; the first cycle publishes and the second one skips.  (The
diary and the blog are different sites: the blog URL is no prefix of the feed
URL.) -/
theorem twoCycles_publish_once (p : plugin) (rss : RSS) (item : RSSItem)
    (rest : List RSSItem) (q0 : Post) (older : Site)
    (hitems : rss.Channel.Items = item :: rest) (hsep : ¬ p.blogURL <+: feedURL p)
    (hnew : q0.recorded ≠ item.Link) :
    (twoCycles p rss (q0 :: older)).1.posts = [micropubRequest p item]
    ∧ (twoCycles p rss (q0 :: older)).2.posts = []
    ∧ ((twoCycles p rss (q0 :: older)).1.posts
        ++ (twoCycles p rss (q0 :: older)).2.posts).length = 1
    ∧ (twoCycles p rss (q0 :: older)).1.exit = .returned
    ∧ (twoCycles p rss (q0 :: older)).2.exit = .returned
    ∧ (cycle p rss (q0 :: older)).2 = ⟨slug p item, some item.Link⟩ :: q0 :: older := by
  have hrun1 := fetchWatches_siteWorld p rss item rest q0 older hitems hsep
  simp only [hnew, ne_eq, not_false_eq_true, if_true] at hrun1
  have hsite : (cycle p rss (q0 :: older)).2 = ⟨slug p item, some item.Link⟩ :: q0 :: older := by
    unfold cycle
    simp only [hrun1]
    rfl
  have hrun2 := fetchWatches_siteWorld p rss item rest ⟨slug p item, some item.Link⟩
    (q0 :: older) hitems hsep
  simp only [Post.recorded, ne_eq, not_true_eq_false, if_false] at hrun2
  have h1 : (twoCycles p rss (q0 :: older)).1 = fetchWatches p (siteWorld p rss (q0 :: older)) :=
    rfl
  have h2 : (twoCycles p rss (q0 :: older)).2
      = fetchWatches p (siteWorld p rss (⟨slug p item, some item.Link⟩ :: q0 :: older)) := by
    unfold twoCycles
    simp only [hsite]
    rfl
  rw [h1, h2, hrun1, hrun2]
  exact ⟨rfl, rfl, rfl, rfl, rfl, hsite⟩

/-- C2 at the end-to-end scenario: `demoFeed` against `demoSite`. -/
theorem twoCycles_publish_once_witness :
    (twoCycles demoPlugin demoFeed demoSite).1.posts = [micropubRequest demoPlugin movieA]
    ∧ (twoCycles demoPlugin demoFeed demoSite).2.posts = [] :=
  have h := twoCycles_publish_once demoPlugin demoFeed movieA [] ⟨"hello".toList, none⟩ []
    rfl (by decide) (by decide)
  ⟨h.1, h.2.1⟩

end Letterboxd
